import Mathlib

/-
Verification of the SSML builder from src/main.py.

The program assembles an SSML document from a tabular transcript: it strips
bracketed annotations from each row of the target column, parses
minutes:seconds timestamps with a zero fallback, inserts silence segments
for timestamp gaps, and selects one of two voices from the Speaker field.
The definitions below are a shallow embedding of those functions; rows are
modelled, as the program reads them, as mappings from column names to
string values.
-/

namespace SSML

/-! ## Data model: transcript rows and tables -/

/-- A transcript row: a mapping from column name to string value, as read by
pandas row.get in src/main.py. A missing key yields the supplied default. -/
abbrev Row := List (String × String)

/-- Models pandas Series.get with a default: the value at the key when the
key is present, the default otherwise. -/
def rowGet (row : Row) (key dflt : String) : String :=
  match row.lookup key with
  | some v => v
  | none => dflt

/-- A transcript table: the column index (df.columns) and the ordered rows
(df.iterrows). -/
structure Table where
  cols : List String
  rows : List Row

/-! ## clean_text (src/main.py line 48)

The source is re.sub applied with pattern backslash, open bracket, dot,
star, question mark, backslash, close bracket: scanning left to right,
each span from an open bracket through the NEXT close bracket (non-greedy)
is removed. The dot does not match a newline, so an open bracket followed
by a newline before any close bracket starts no match; neither does an
open bracket with no later close bracket. In both cases the consumed text
is kept verbatim, and every open bracket inside that dead text also fails
to start a match, since it sees the same blocking newline or end of
input before any close bracket. -/

/-- One left-to-right pass implementing the non-greedy removal. The first
argument is none outside a match attempt; inside, it carries (reversed) the
characters consumed since the opening bracket. A close bracket ends the
match and drops the buffer; a newline refutes the match attempt (the dot
excludes it), so the buffered characters and the newline are restored
verbatim; an end of input with the buffer still open likewise restores the
buffer verbatim. -/
def cleanGo : Option (List Char) → List Char → List Char
  | none, [] => []
  | none, c :: rest =>
    if c = '[' then cleanGo (some [c]) rest
    else c :: cleanGo none rest
  | some pend, [] => pend.reverse
  | some pend, c :: rest =>
    if c = ']' then cleanGo none rest
    else if c = '\n' then pend.reverse ++ '\n' :: cleanGo none rest
    else cleanGo (some (c :: pend)) rest

/-- clean_text on character lists. -/
def cleanChars (l : List Char) : List Char :=
  cleanGo none l

/-- Models clean_text from src/main.py: remove every bracketed annotation
span from the text. -/
def clean_text (text : String) : String :=
  String.mk (cleanChars text.toList)

/-- Decides whether a character list still contains a bracket-delimited
substring, that is an open bracket followed somewhere later by a close
bracket. -/
def hasBracketSpan : List Char → Bool
  | [] => false
  | c :: rest => (c == '[' && rest.contains ']') || hasBracketSpan rest

/-- Decides whether a close bracket occurs before any newline: exactly the
condition under which the non-greedy pattern can complete a match started
just before this list. -/
def closesBeforeNewline : List Char → Bool
  | [] => false
  | c :: rest => c == ']' || (!(c == '\n') && closesBeforeNewline rest)

/-- Decides whether a character list contains a matchable bracket span: an
open bracket followed by a close bracket with no newline in between. -/
def hasLineBracketSpan : List Char → Bool
  | [] => false
  | c :: rest => (c == '[' && closesBeforeNewline rest) || hasLineBracketSpan rest

/-! ## convert_timestamp_to_seconds (src/main.py line 51)

The source splits on the colon, converts both parts with the Python int
constructor, and returns minutes * 60 + seconds; any ValueError (wrong
number of parts, or a part the int constructor rejects) yields 0. -/

/-- Models str.split with a one-character separator: adjacent separators
and leading or trailing separators produce empty fields, and the empty
string splits to one empty field. -/
def splitCh (sep : Char) : List Char → List (List Char)
  | [] => [[]]
  | c :: rest =>
    match splitCh sep rest with
    | [] => [[]]
    | t :: ts => if c = sep then [] :: t :: ts else (c :: t) :: ts

/-- The value of a digit run as the Python int constructor reads it after
its first digit: decimal digits, with single underscores allowed and only
when a digit follows (the caller guarantees one precedes), accumulated
into the value. Anything else fails. -/
def digitsGo (acc : Nat) : List Char → Option Nat
  | [] => some acc
  | c :: rest =>
    if c.isDigit then digitsGo (acc * 10 + (c.toNat - '0'.toNat)) rest
    else if c = '_' then
      match rest with
      | [] => none
      | d :: _ => if d.isDigit then digitsGo acc rest else none
    else none

/-- The value of a Python decimal digit run: non-empty, starting with a
digit, underscores single and strictly between digits. -/
def digitsToNat (l : List Char) : Option Nat :=
  match l with
  | [] => none
  | c :: _ => if c.isDigit then digitsGo 0 l else none

/-- The ASCII whitespace characters the Python int constructor strips
(its Unicode space test also accepts the separator range 1c to 1f within
ASCII). -/
def isPySpace (c : Char) : Bool :=
  c == ' ' || c == '\t' || c == '\n' || c == '\r' || c == '\x0b' || c == '\x0c'
    || c == '\x1c' || c == '\x1d' || c == '\x1e' || c == '\x1f'

/-- Strip surrounding whitespace from a character list. -/
def stripChars (l : List Char) : List Char :=
  ((l.dropWhile isPySpace).reverse.dropWhile isPySpace).reverse

/-- Models the Python int constructor on ASCII decimal input: surrounding
whitespace is stripped, an optional single sign precedes a non-empty digit
run with optional single underscores between digits. On every ASCII string
this agrees with the Python int constructor; decimal digits outside ASCII
(which Python also accepts) are not modelled, so acceptance here implies
acceptance by Python but not conversely beyond ASCII. -/
def pyIntChars (l : List Char) : Option Int :=
  match stripChars l with
  | '+' :: rest => (digitsToNat rest).map (fun n => (n : Int))
  | '-' :: rest => (digitsToNat rest).map (fun n => -(n : Int))
  | rest => (digitsToNat rest).map (fun n => (n : Int))

/-- Models convert_timestamp_to_seconds from src/main.py: split on the
colon, convert both parts as Python int, return minutes * 60 + seconds;
any failure (part count different from two, or a non-integer part) is the
ValueError branch and yields 0. -/
def convert_timestamp_to_seconds (timestamp : String) : Int :=
  match (splitCh ':' timestamp.toList).map pyIntChars with
  | [some minutes, some seconds] => minutes * 60 + seconds
  | _ => 0

/-! ## generate_ssml (src/main.py lines 120 to 154)

The loop appends to the ssml_content string one break element or voice
element at a time; the embedding records those appended pieces as a list
of segments and renders them to the exact strings the source concatenates.
The upload of the finished document to storage is the storage
collaborator's effect; the embedding returns the document itself. -/

/-- One unit of the document body: a break element with a whole-second
duration, or a voice element with a voice name and the cleaned text. -/
inductive Segment where
  | silence (duration : Int)
  | voice (name : String) (text : String)
deriving DecidableEq

/-- The body of the loop in generate_ssml, acting on the accumulated
segments and the last_timestamp tracker. A row whose cleaned text is empty
is the continue branch: nothing changes. Otherwise the delay from the
tracker is computed, the tracker is set to the row's own timestamp, a
break is appended exactly when the delay is positive, and a voice element
follows, named by the strict speaker test against "spk_0". -/
def processRow (lang_column male_voice female_voice : String)
    (st : List Segment × Int) (row : Row) : List Segment × Int :=
  let speaker := rowGet row "Speaker" "spk_0"
  let transcription := clean_text (rowGet row lang_column "")
  if transcription = "" then st
  else
    let timestamp_seconds := convert_timestamp_to_seconds (rowGet row "Time Markers" "0:00")
    let delay := max 0 (timestamp_seconds - st.2)
    let breaks := if delay > 0 then [Segment.silence delay] else []
    let voice := if speaker = "spk_0" then male_voice else female_voice
    (st.1 ++ (breaks ++ [Segment.voice voice transcription]), timestamp_seconds)

/-- The segments the loop of generate_ssml emits when started with the
tracker at t. -/
def ssmlFromState (lang_column male_voice female_voice : String) (t : Int)
    (rows : List Row) : List Segment :=
  (rows.foldl (processRow lang_column male_voice female_voice) ([], t)).1

/-- The full segment list of one generate_ssml invocation: the fold over
the rows from the empty accumulator with last_timestamp = 0. -/
def generate_ssml_segments (df : Table) (lang_column male_voice female_voice : String) :
    List Segment :=
  (df.rows.foldl (processRow lang_column male_voice female_voice) ([], 0)).1

/-- The exact string the source appends for one segment: the break element
for a silence, the voice element with trailing newline for an utterance. -/
def renderSegment : Segment → String
  | Segment.silence d => "<break time=\x27" ++ toString d ++ "s\x27/>"
  | Segment.voice v t => "<voice name=\x27" ++ v ++ "\x27>" ++ t ++ "</voice>\n"

/-- The opening speak element carrying the language tag, as built on
line 125 of src/main.py. -/
def ssmlHeader (xml_lang : String) : String :=
  "<speak xmlns=\x27http://www.w3.org/2001/10/synthesis\x27 xml:lang=\x27" ++ xml_lang ++ "\x27>\n"

/-- Models generate_ssml from src/main.py: a missing target column raises
ValueError naming the column before any segment is built; otherwise the
document is the speak envelope around the rendered segments. -/
def generate_ssml (df : Table) (lang_column male_voice female_voice xml_lang : String) :
    Except String String :=
  if (df.cols.contains lang_column) = false then
    Except.error ("Column \x27" ++ lang_column ++ "\x27 not found in the CSV file.")
  else
    Except.ok
      (ssmlHeader xml_lang
        ++ String.join ((generate_ssml_segments df lang_column male_voice female_voice).map renderSegment)
        ++ "</speak>")

/-! ## convert_ssml_to_audio (src/main.py lines 156 to 190)

The function posts the document to the synthesis service and branches on
the response status: 200 stores the audio bytes and returns their storage
location, anything else raises an Exception carrying the response text.
The response is a collaborator input here; secret retrieval and the
storage fetch of the document are collaborator effects outside the branch
being verified. -/

/-- The synthesis collaborator's response: HTTP status, body bytes, body
text. -/
structure HttpResponse where
  status_code : Nat
  content : String
  text : String
deriving DecidableEq

/-- The audio folder key prefix from src/main.py line 39. -/
def S3_AUDIO_FOLDER : String := "audio/"

/-- Models upload_file_to_s3 from src/main.py: the storage effect is the
collaborator's; the returned location reference is the s3 path built from
bucket, folder and filename. -/
def upload_file_to_s3 (bucket : String) (_file_data : String)
    (filename : String) (folder : String) : String :=
  "s3://" ++ bucket ++ "/" ++ folder ++ filename

/-- Models the status branch of convert_ssml_to_audio from src/main.py:
on status 200 the audio is stored and its location returned; on any other
status an Exception naming the upstream response text is raised. -/
def convert_ssml_to_audio (bucket : String) (response : HttpResponse)
    (audio_filename : String) : Except String String :=
  if response.status_code = 200 then
    Except.ok (upload_file_to_s3 bucket response.content audio_filename S3_AUDIO_FOLDER)
  else
    Except.error ("Error from Azure API: " ++ response.text)

/-! ## Concrete tables used as test vectors -/

/-- Two rows with non-empty text at timestamps 0:00 and 0:10, the first
spoken by spk_0, the second by another speaker. -/
def tableTwoRows : Table :=
  ⟨["Speaker", "Time Markers", "EN--Transcription"],
    [[("Speaker", "spk_0"), ("Time Markers", "0:00"), ("EN--Transcription", "hello")],
      [("Speaker", "spk_1"), ("Time Markers", "0:10"), ("EN--Transcription", "world")]]⟩

/-- Three rows with non-monotonic timestamps 0:00, 0:05, 0:03. -/
def nonMonoTable : Table :=
  ⟨["Speaker", "Time Markers", "EN--Transcription"],
    [[("Speaker", "spk_0"), ("Time Markers", "0:00"), ("EN--Transcription", "a")],
      [("Speaker", "spk_1"), ("Time Markers", "0:05"), ("EN--Transcription", "b")],
      [("Speaker", "spk_0"), ("Time Markers", "0:03"), ("EN--Transcription", "c")]]⟩

/-- One row whose target-column text is a single space: whitespace-only,
so it is empty after whitespace stripping but not after bracket stripping
alone. -/
def wsTable : Table :=
  ⟨["Speaker", "Time Markers", "EN--Transcription"],
    [[("Speaker", "spk_0"), ("Time Markers", "0:07"), ("EN--Transcription", " ")]]⟩

/-! ## Lemmas about clean_text -/

/-- A list not containing an element does not contain it in the Bool
sense either. -/
theorem contains_eq_false_of_not_mem {α : Type} [BEq α] [LawfulBEq α]
    (l : List α) (a : α) (h : a ∉ l) : l.contains a = false := by
  cases hc : l.contains a with
  | false => rfl
  | true => exact absurd (List.elem_iff.mp hc) h

/-- Bool contains is false exactly on non-members. -/
theorem contains_false_iff {α : Type} [BEq α] [LawfulBEq α] (l : List α) (a : α) :
    l.contains a = false ↔ a ∉ l := by
  constructor
  · intro h hm
    have ht : l.contains a = true := List.elem_iff.mpr hm
    rw [ht] at h
    cases h
  · exact contains_eq_false_of_not_mem l a

/-- Text with no opening bracket passes through the cleaning scan
verbatim. -/
theorem cleanGo_no_open (l : List Char) (h : '[' ∉ l) : cleanGo none l = l := by
  induction l with
  | nil => rfl
  | cons c rest ih =>
    simp only [List.mem_cons, not_or] at h
    simp only [cleanGo]
    rw [if_neg (fun hc => h.1 hc.symm), ih h.2]

/-- Inside a match attempt the scan drops everything through the first
close bracket, whatever was buffered so far, as long as no newline comes
first. -/
theorem cleanGo_pending (mid : List Char) :
    ∀ (pend b : List Char), ']' ∉ mid → '\n' ∉ mid →
      cleanGo (some pend) (mid ++ ']' :: b) = cleanGo none b := by
  induction mid with
  | nil => intro pend b _ _; simp [cleanGo]
  | cons c rest ih =>
    intro pend b h hn
    simp only [List.mem_cons, not_or] at h hn
    simp only [List.cons_append, cleanGo]
    rw [if_neg (fun hc => h.1 hc.symm), if_neg (fun hc => hn.1 hc.symm)]
    exact ih _ b h.2 hn.2

/-- The scan removes a newline-free bracketed span and keeps the text
before it verbatim. -/
theorem cleanChars_removes_span (a mid b : List Char)
    (ha : '[' ∉ a) (hmid : ']' ∉ mid) (hmidn : '\n' ∉ mid) :
    cleanChars (a ++ '[' :: (mid ++ ']' :: b)) = a ++ cleanChars b := by
  induction a with
  | nil =>
    simp only [List.nil_append, cleanChars, cleanGo, if_pos rfl]
    exact cleanGo_pending mid _ b hmid hmidn
  | cons c rest ih =>
    simp only [List.mem_cons, not_or] at ha
    simp only [List.cons_append, cleanChars, cleanGo, List.append_eq] at ih ⊢
    rw [if_neg (fun hc => ha.1 hc.symm), ih ha.2]

/-- Without a close bracket no match can complete. -/
theorem closesBeforeNewline_no_close (l : List Char) (h : ']' ∉ l) :
    closesBeforeNewline l = false := by
  induction l with
  | nil => rfl
  | cons c rest ih =>
    simp only [List.mem_cons, not_or] at h
    simp only [closesBeforeNewline, beq_eq_false_iff_ne.mpr (fun hc => h.1 hc.symm),
      Bool.false_or, ih h.2, Bool.and_false]

/-- A newline blocks every match attempted from inside a close-free,
newline-free prefix. -/
theorem closesBeforeNewline_flush (zs ys : List Char) (h1 : ']' ∉ zs) (h2 : '\n' ∉ zs) :
    closesBeforeNewline (zs ++ '\n' :: ys) = false := by
  induction zs with
  | nil => rfl
  | cons c rest ih =>
    simp only [List.mem_cons, not_or] at h1 h2
    simp only [List.cons_append, List.append_eq, closesBeforeNewline,
      beq_eq_false_iff_ne.mpr (fun hc => h1.1 hc.symm), Bool.false_or,
      ih h1.2 h2.2, Bool.and_false]

/-- A list with no close bracket holds no matchable bracket span. -/
theorem hasLineBracketSpan_no_close (l : List Char) (h : ']' ∉ l) :
    hasLineBracketSpan l = false := by
  induction l with
  | nil => rfl
  | cons c rest ih =>
    simp only [List.mem_cons, not_or] at h
    simp only [hasLineBracketSpan, closesBeforeNewline_no_close rest h.2,
      Bool.and_false, Bool.false_or, ih h.2]

/-- A flushed dead buffer followed by its blocking newline contributes no
matchable bracket span. -/
theorem hasLineBracketSpan_flush (xs ys : List Char) (h1 : ']' ∉ xs) (h2 : '\n' ∉ xs) :
    hasLineBracketSpan (xs ++ '\n' :: ys) = hasLineBracketSpan ys := by
  induction xs with
  | nil => simp [hasLineBracketSpan]
  | cons c rest ih =>
    simp only [List.mem_cons, not_or] at h1 h2
    simp only [List.cons_append, List.append_eq, hasLineBracketSpan,
      closesBeforeNewline_flush rest ys h1.2 h2.2, Bool.and_false, Bool.false_or,
      ih h1.2 h2.2]

/-- The cleaning scan never leaves a matchable bracket span, from any
machine state whose buffer holds no close bracket and no newline. -/
theorem hasLineBracketSpan_cleanGo :
    ∀ (l : List Char) (st : Option (List Char)),
      (∀ pend, st = some pend → ']' ∉ pend ∧ '\n' ∉ pend) →
      hasLineBracketSpan (cleanGo st l) = false := by
  intro l
  induction l with
  | nil =>
    intro st hst
    match st with
    | none => rfl
    | some pend =>
      have hp : ']' ∉ pend.reverse := by
        simpa [List.mem_reverse] using (hst pend rfl).1
      simpa [cleanGo] using hasLineBracketSpan_no_close _ hp
  | cons c rest ih =>
    intro st hst
    match st with
    | none =>
      by_cases hc : c = '['
      · subst hc
        simp only [cleanGo, if_pos rfl]
        exact ih (some ['[']) (by intro p hp; cases hp; decide)
      · simp only [cleanGo, if_neg hc, hasLineBracketSpan]
        rw [beq_eq_false_iff_ne.mpr hc]
        simp [ih none (by intro p hp; cases hp)]
    | some pend =>
      by_cases hc : c = ']'
      · subst hc
        simp only [cleanGo, if_pos rfl]
        exact ih none (by intro p hp; cases hp)
      · by_cases hn : c = '\n'
        · subst hn
          have hstep : cleanGo (some pend) ('\n' :: rest)
              = pend.reverse ++ '\n' :: cleanGo none rest := by
            simp [cleanGo, hc]
          rw [hstep, hasLineBracketSpan_flush _ _
            (by simpa [List.mem_reverse] using (hst pend rfl).1)
            (by simpa [List.mem_reverse] using (hst pend rfl).2)]
          exact ih none (by intro p hp; cases hp)
        · simp only [cleanGo, if_neg hc, if_neg hn]
          refine ih (some (c :: pend)) ?_
          intro p hp
          cases hp
          simp only [List.mem_cons, not_or]
          exact ⟨⟨fun h => hc h.symm, (hst pend rfl).1⟩,
            ⟨fun h => hn h.symm, (hst pend rfl).2⟩⟩

/-! ## Lemmas about the generate_ssml loop -/

/-- A row whose cleaned text is empty is the continue branch: it changes
neither the accumulated segments nor the tracker. -/
theorem processRow_skip (c m f : String) (st : List Segment × Int) (row : Row)
    (h : clean_text (rowGet row c "") = "") :
    processRow c m f st row = st := by
  simp [processRow, h]

/-- A row whose cleaned text is non-empty appends an optional break and a
voice element and sets the tracker to the row's own timestamp. -/
theorem processRow_emit (c m f : String) (st : List Segment × Int) (row : Row)
    (h : ¬ clean_text (rowGet row c "") = "") :
    processRow c m f st row =
      (st.1 ++
        ((if max 0 (convert_timestamp_to_seconds (rowGet row "Time Markers" "0:00") - st.2) > 0
            then [Segment.silence
              (max 0 (convert_timestamp_to_seconds (rowGet row "Time Markers" "0:00") - st.2))]
            else [])
          ++ [Segment.voice (if rowGet row "Speaker" "spk_0" = "spk_0" then m else f)
                (clean_text (rowGet row c ""))]),
        convert_timestamp_to_seconds (rowGet row "Time Markers" "0:00")) := by
  simp [processRow, h]

/-- The loop body only appends: its effect from any accumulator is its
effect from the empty accumulator, prefixed by the old segments. -/
theorem processRow_append (c m f : String) (segs : List Segment) (t : Int) (row : Row) :
    processRow c m f (segs, t) row =
      (segs ++ (processRow c m f ([], t) row).1, (processRow c m f ([], t) row).2) := by
  by_cases h : clean_text (rowGet row c "") = ""
  · rw [processRow_skip c m f (segs, t) row h, processRow_skip c m f ([], t) row h]
    simp
  · rw [processRow_emit c m f (segs, t) row h, processRow_emit c m f ([], t) row h]
    simp

/-- The whole fold only appends: running it from any accumulator equals
the old segments followed by the run from the empty accumulator. -/
theorem foldl_processRow_append (c m f : String) :
    ∀ (rows : List Row) (segs : List Segment) (t : Int),
      List.foldl (processRow c m f) (segs, t) rows =
        (segs ++ (List.foldl (processRow c m f) ([], t) rows).1,
          (List.foldl (processRow c m f) ([], t) rows).2) := by
  intro rows
  induction rows with
  | nil => intro segs t; simp
  | cons row rest ih =>
    intro segs t
    simp only [List.foldl_cons]
    rw [processRow_append]
    rw [ih (segs ++ (processRow c m f ([], t) row).1) ((processRow c m f ([], t) row).2)]
    conv_rhs =>
      rw [show processRow c m f ([], t) row
            = ((processRow c m f ([], t) row).1, (processRow c m f ([], t) row).2) from rfl]
    rw [ih ((processRow c m f ([], t) row).1) ((processRow c m f ([], t) row).2)]
    simp [List.append_assoc]

/-- One step of the loop, as the spec words it: skip an empty row without
touching the tracker; otherwise emit the break exactly when the delay from
the tracker is positive, emit the voice element chosen by the speaker
test, and continue with the tracker set to the row's own timestamp. -/
theorem ssmlFromState_cons (c m f : String) (row : Row) (rows : List Row) (t : Int) :
    ssmlFromState c m f t (row :: rows) =
      if clean_text (rowGet row c "") = "" then ssmlFromState c m f t rows
      else
        (if max 0 (convert_timestamp_to_seconds (rowGet row "Time Markers" "0:00") - t) > 0
          then [Segment.silence
            (max 0 (convert_timestamp_to_seconds (rowGet row "Time Markers" "0:00") - t))]
          else [])
        ++ [Segment.voice (if rowGet row "Speaker" "spk_0" = "spk_0" then m else f)
              (clean_text (rowGet row c ""))]
        ++ ssmlFromState c m f (convert_timestamp_to_seconds (rowGet row "Time Markers" "0:00")) rows := by
  by_cases h : clean_text (rowGet row c "") = ""
  · simp only [ssmlFromState, List.foldl_cons, processRow_skip c m f ([], t) row h, if_pos h]
  · simp only [ssmlFromState, List.foldl_cons, processRow_emit c m f ([], t) row h, if_neg h,
      List.nil_append]
    rw [foldl_processRow_append]

/-- Every silence in the fold's output is positive, provided every silence
already accumulated is. -/
theorem foldl_silence_positive (c m f : String) :
    ∀ (rows : List Row) (st : List Segment × Int),
      (∀ s ∈ st.1, ∀ d : Int, s = Segment.silence d → 0 < d) →
      ∀ s ∈ (List.foldl (processRow c m f) st rows).1, ∀ d : Int, s = Segment.silence d → 0 < d := by
  intro rows
  induction rows with
  | nil => intro st h; simpa using h
  | cons row rest ih =>
    intro st h
    simp only [List.foldl_cons]
    refine ih _ ?_
    by_cases hrow : clean_text (rowGet row c "") = ""
    · rw [processRow_skip c m f st row hrow]; exact h
    · rw [processRow_emit c m f st row hrow]
      intro s hs d hd
      by_cases hdel :
          max 0 (convert_timestamp_to_seconds (rowGet row "Time Markers" "0:00") - st.2) > 0
      · rw [if_pos hdel] at hs
        simp only [List.mem_append, List.mem_cons, List.mem_singleton,
          List.not_mem_nil, or_false] at hs
        rcases hs with hs | hs | hs
        · exact h s hs d hd
        · subst hs; injection hd with hd'; omega
        · subst hs; exact Segment.noConfusion hd
      · rw [if_neg hdel] at hs
        simp only [List.mem_append, List.mem_singleton, List.nil_append,
          List.not_mem_nil, or_false] at hs
        rcases hs with hs | hs
        · exact h s hs d hd
        · subst hs; exact Segment.noConfusion hd

/-- When every row's cleaned text is empty the fold is the identity. -/
theorem foldl_skip_all (c m f : String) :
    ∀ (rows : List Row), (∀ row ∈ rows, clean_text (rowGet row c "") = "") →
      ∀ st : List Segment × Int, List.foldl (processRow c m f) st rows = st := by
  intro rows
  induction rows with
  | nil => intro _ st; rfl
  | cons row rest ih =>
    intro h st
    simp only [List.foldl_cons]
    rw [processRow_skip c m f st row (h row (by simp))]
    exact ih (fun r hr => h r (by simp [hr])) st

/-! ## Claim theorems -/

/-- C1: the builder processes rows in table order with a last-timestamp
tracker starting at zero; a row with non-empty cleaned text yields delay
equal to max 0 of its timestamp minus the tracker, the tracker is then set
to the row's own timestamp even when the delay is zero, and a silence
segment of exactly that many seconds precedes the voiced segment exactly
when the delay is positive; on the two-row table at 0:00 and 0:10 the
output is the first voiced segment, one 10-second silence, then the
second voiced segment. -/
theorem generate_ssml_timing_order (df : Table) (c m f : String) :
    generate_ssml_segments df c m f = ssmlFromState c m f 0 df.rows
    ∧ (∀ (row : Row) (rows : List Row) (t : Int),
        ssmlFromState c m f t (row :: rows) =
          if clean_text (rowGet row c "") = "" then ssmlFromState c m f t rows
          else
            (if max 0 (convert_timestamp_to_seconds (rowGet row "Time Markers" "0:00") - t) > 0
              then [Segment.silence
                (max 0 (convert_timestamp_to_seconds (rowGet row "Time Markers" "0:00") - t))]
              else [])
            ++ [Segment.voice (if rowGet row "Speaker" "spk_0" = "spk_0" then m else f)
                  (clean_text (rowGet row c ""))]
            ++ ssmlFromState c m f
                (convert_timestamp_to_seconds (rowGet row "Time Markers" "0:00")) rows)
    ∧ generate_ssml_segments tableTwoRows "EN--Transcription" m f =
        [Segment.voice m "hello", Segment.silence 10, Segment.voice f "world"] :=
  ⟨rfl, fun row rows t => ssmlFromState_cons c m f row rows t, rfl⟩

/-- C2: a target column absent from the table makes the builder fail at
once with the configuration error naming that column, and no document is
ever produced for such a request. -/
theorem missing_column_error (df : Table) (c m f x : String)
    (h : df.cols.contains c = false) :
    generate_ssml df c m f x =
      Except.error ("Column \x27" ++ c ++ "\x27 not found in the CSV file.")
    ∧ ∀ doc : String, generate_ssml df c m f x ≠ Except.ok doc := by
  have herr : generate_ssml df c m f x =
      Except.error ("Column \x27" ++ c ++ "\x27 not found in the CSV file.") := by
    simp [generate_ssml, (contains_false_iff df.cols c).mp h]
  exact ⟨herr, fun doc hdoc => by rw [herr] at hdoc; exact Except.noConfusion hdoc⟩

/-- C2 witness. -/
theorem missing_column_error_witness :
    generate_ssml tableTwoRows "XX" "M" "F" "en-US" =
      Except.error "Column \x27XX\x27 not found in the CSV file." :=
  (missing_column_error tableTwoRows "XX" "M" "F" "en-US" (by decide)).1

/-- C3 counterexample: the dot in the source pattern does not match a
newline, so a bracketed span containing one is not removed: cleaning
leaves the input bracket, a, newline, b, close bracket unchanged, and the
cleaned result still contains a bracket-delimited substring. -/
theorem clean_text_newline_span_kept :
    clean_text "[a\nb]" = "[a\nb]"
    ∧ hasBracketSpan (cleanChars "[a\nb]".toList) = true :=
  ⟨by decide, by decide⟩

/-- C3 (amended): cleaning removes every substring from an opening
bracket through the next closing bracket provided no newline lies between
them, keeps the text outside removed spans verbatim and in order, and its
result never contains a bracket-delimited substring free of newlines
between the brackets; a span enclosing a newline is kept verbatim. -/
theorem clean_text_bracket_removal (a mid b rest : List Char)
    (ha : '[' ∉ a) (hmid : ']' ∉ mid) (hmidn : '\n' ∉ mid) (hrest : '[' ∉ rest) :
    cleanChars (a ++ '[' :: (mid ++ ']' :: b)) = a ++ cleanChars b
    ∧ cleanChars rest = rest
    ∧ (∀ l : List Char, hasLineBracketSpan (cleanChars l) = false)
    ∧ ∀ s : String, clean_text s = String.mk (cleanChars s.toList) :=
  ⟨cleanChars_removes_span a mid b ha hmid hmidn,
    cleanGo_no_open rest hrest,
    fun l => hasLineBracketSpan_cleanGo l none (by intro p hp; cases hp),
    fun _ => rfl⟩

/-- C3 witness. -/
theorem clean_text_bracket_removal_witness :
    cleanChars (['x'] ++ '[' :: (['n'] ++ ']' :: ['y'])) = ['x'] ++ cleanChars ['y'] :=
  (clean_text_bracket_removal ['x'] ['n'] ['y'] ['z']
      (by decide) (by decide) (by decide) (by decide)).1

/-- C4: a timestamp of the form M:S with both parts integers parses to
60 times M plus S, Python numeral forms with underscore separators
included, and every failing parse of an ASCII input, such as abc, yields
the fallback 0 instead of an error; non-ASCII decimal digits, which the
Python int constructor also accepts, lie outside the embedding, so the
fallback clause is scoped to ASCII input. -/
theorem convert_timestamp_spec (t : String) (m s : Int)
    (hms : (splitCh ':' t.toList).map pyIntChars = [some m, some s]) :
    convert_timestamp_to_seconds t = 60 * m + s
    ∧ convert_timestamp_to_seconds "abc" = 0
    ∧ convert_timestamp_to_seconds "1_0:30" = 630
    ∧ ∀ u : String, (∀ ch ∈ u.toList, ch.toNat < 128) →
        (∀ m' s' : Int, (splitCh ':' u.toList).map pyIntChars ≠ [some m', some s']) →
        convert_timestamp_to_seconds u = 0 := by
  refine ⟨?_, by decide, by decide, ?_⟩
  · unfold convert_timestamp_to_seconds
    rw [hms]
    show m * 60 + s = 60 * m + s
    ring
  · intro u _ hu
    unfold convert_timestamp_to_seconds
    split
    · rename_i m' s' heq
      exact absurd heq (hu m' s')
    · rfl

/-- C4 witness. -/
theorem convert_timestamp_spec_witness :
    convert_timestamp_to_seconds "1:30" = 60 * 1 + 30 :=
  (convert_timestamp_spec "1:30" 1 30 (by decide)).1

/-- C5 counterexample: a row whose target text is a single space is empty
after whitespace and bracket stripping, yet the builder does not skip it:
it emits a silence and a voiced segment and moves the tracker to 7. -/
theorem whitespace_row_not_skipped :
    stripChars (clean_text " ").toList = []
    ∧ generate_ssml_segments wsTable "EN--Transcription" "M" "F"
        = [Segment.silence 7, Segment.voice "M" " "]
    ∧ (wsTable.rows.foldl (processRow "EN--Transcription" "M" "F") ([], 0)).2 = 7 :=
  ⟨by decide, by decide, by decide⟩

/-- C5 (amended): a row whose target text is empty after bracket
stripping alone (no whitespace stripping is performed) contributes zero
segments and leaves the last-timestamp tracker unchanged. -/
theorem emptyclean_row_skipped (c m f : String) (st : List Segment × Int) (row : Row)
    (rows : List Row) (t : Int) (h : clean_text (rowGet row c "") = "") :
    processRow c m f st row = st
    ∧ ssmlFromState c m f t (row :: rows) = ssmlFromState c m f t rows := by
  refine ⟨processRow_skip c m f st row h, ?_⟩
  simp only [ssmlFromState, List.foldl_cons, processRow_skip c m f ([], t) row h]

/-- C5 witness. -/
theorem emptyclean_row_skipped_witness :
    clean_text (rowGet [("EN--Transcription", "[x]")] "EN--Transcription" "") = ""
    ∧ processRow "EN--Transcription" "M" "F" ([], 0) [("EN--Transcription", "[x]")] = ([], 0) :=
  ⟨by decide,
    (emptyclean_row_skipped "EN--Transcription" "M" "F" ([], 0)
        [("EN--Transcription", "[x]")] [] 0 (by decide)).1⟩

/-- C6: the voiced segment of a non-skipped row carries the male voice
exactly when the row's speaker equals spk_0 and the female voice for any
other value, and a row with no Speaker field defaults to spk_0 and gets
the male voice. -/
theorem voice_selection (row : Row) (c m f : String) (st : List Segment × Int)
    (h : ¬ clean_text (rowGet row c "") = "") :
    (processRow c m f st row).1.getLast? =
      some (Segment.voice (if rowGet row "Speaker" "spk_0" = "spk_0" then m else f)
        (clean_text (rowGet row c "")))
    ∧ (row.lookup "Speaker" = none →
        (processRow c m f st row).1.getLast? =
          some (Segment.voice m (clean_text (rowGet row c "")))) := by
  have hmain : (processRow c m f st row).1.getLast? =
      some (Segment.voice (if rowGet row "Speaker" "spk_0" = "spk_0" then m else f)
        (clean_text (rowGet row c ""))) := by
    rw [processRow_emit c m f st row h, ← List.append_assoc]
    exact List.getLast?_concat _
  refine ⟨hmain, fun habs => ?_⟩
  have hspk : rowGet row "Speaker" "spk_0" = "spk_0" := by simp [rowGet, habs]
  rw [hmain]
  simp [hspk]

/-- C6 witness. -/
theorem voice_selection_witness :
    (processRow "EN--Transcription" "M" "F" ([], 0)
        [("Time Markers", "0:00"), ("EN--Transcription", "hi")]).1.getLast? =
      some (Segment.voice "M"
        (clean_text (rowGet [("Time Markers", "0:00"), ("EN--Transcription", "hi")]
          "EN--Transcription" ""))) :=
  (voice_selection [("Time Markers", "0:00"), ("EN--Transcription", "hi")]
      "EN--Transcription" "M" "F" ([], 0) (by decide)).2 (by decide)

/-- C7: every silence segment the builder emits has a strictly positive
duration, for every table including non-monotonic ones; on the table with
timestamps 0:00, 0:05, 0:03 the third row emits no silence at all. -/
theorem silence_segments_positive (df : Table) (c m f : String) (seg : Segment) (d : Int)
    (hmem : seg ∈ generate_ssml_segments df c m f) (hseg : seg = Segment.silence d) :
    0 < d
    ∧ generate_ssml_segments nonMonoTable "EN--Transcription" m f =
        [Segment.voice m "a", Segment.silence 5, Segment.voice f "b", Segment.voice m "c"] :=
  ⟨foldl_silence_positive c m f df.rows ([], 0) (by simp) seg hmem d hseg, rfl⟩

/-- C7 witness. -/
theorem silence_segments_positive_witness :
    Segment.silence 10 ∈ generate_ssml_segments tableTwoRows "EN--Transcription" "M" "F"
    ∧ (0 : Int) < 10 :=
  ⟨by decide,
    (silence_segments_positive tableTwoRows "EN--Transcription" "M" "F"
        (Segment.silence 10) 10 (by decide) rfl).1⟩

/-- C8: the synthesis step fails exactly when the collaborator's status is
not 200, with an error naming the upstream response text; on status 200 it
stores the audio and returns its location reference; there is no third
outcome. -/
theorem synthesis_status_dichotomy (bucket : String) (r : HttpResponse) (fn : String) :
    (convert_ssml_to_audio bucket r fn = Except.error ("Error from Azure API: " ++ r.text)
      ↔ r.status_code ≠ 200)
    ∧ (convert_ssml_to_audio bucket r fn
        = Except.ok (upload_file_to_s3 bucket r.content fn S3_AUDIO_FOLDER)
      ↔ r.status_code = 200) := by
  by_cases h : r.status_code = 200
  · exact ⟨by simp [convert_ssml_to_audio, h], by simp [convert_ssml_to_audio, h]⟩
  · exact ⟨by simp [convert_ssml_to_audio, h], by simp [convert_ssml_to_audio, h]⟩

/-- C8 witness. -/
theorem synthesis_status_dichotomy_witness :
    convert_ssml_to_audio "bkt" ⟨500, "bytes", "boom"⟩ "f.wav"
      = Except.error ("Error from Azure API: " ++ ("boom" : String)) :=
  (synthesis_status_dichotomy "bkt" ⟨500, "bytes", "boom"⟩ "f.wav").1.mpr (by decide)

/-- C9: the builder is a pure function of table, column, voices and
language tag: equal inputs give equal documents, and the only internal
state is the per-invocation tracker started at zero. -/
theorem generate_ssml_deterministic (df df' : Table) (c c' m m' f f' x x' : String)
    (hdf : df = df') (hc : c = c') (hm : m = m') (hf : f = f') (hx : x = x') :
    generate_ssml df c m f x = generate_ssml df' c' m' f' x'
    ∧ generate_ssml_segments df c m f = (df.rows.foldl (processRow c m f) ([], 0)).1 := by
  subst hdf; subst hc; subst hm; subst hf; subst hx
  exact ⟨rfl, rfl⟩

/-- C9 witness. -/
theorem generate_ssml_deterministic_witness :
    generate_ssml tableTwoRows "EN--Transcription" "M" "F" "en-US"
      = generate_ssml tableTwoRows "EN--Transcription" "M" "F" "en-US" :=
  (generate_ssml_deterministic tableTwoRows tableTwoRows "EN--Transcription" "EN--Transcription"
      "M" "M" "F" "F" "en-US" "en-US" rfl rfl rfl rfl rfl).1

/-- C10: a table that has the target column but no row with non-empty
cleaned text, including the zero-row table, builds successfully into the
bare speak envelope with the language tag and zero segments; the missing
target column is the only failing condition. -/
theorem generate_ssml_empty_envelope (df : Table) (c m f x : String)
    (hc : df.cols.contains c = true)
    (hrows : ∀ row ∈ df.rows, clean_text (rowGet row c "") = "") :
    generate_ssml df c m f x = Except.ok (ssmlHeader x ++ "</speak>")
    ∧ ∀ (df' : Table) (c' m' f' x' : String),
        (∃ e, generate_ssml df' c' m' f' x' = Except.error e) ↔ df'.cols.contains c' = false := by
  constructor
  · have hseg : generate_ssml_segments df c m f = [] := by
      unfold generate_ssml_segments
      rw [foldl_skip_all c m f df.rows hrows ([], 0)]
    have hmem : c ∈ df.cols := List.elem_iff.mp hc
    simp [generate_ssml, hmem, hseg, String.join, String.append_empty]
  · intro df' c' m' f' x'
    constructor
    · rintro ⟨e, he⟩
      by_contra hcc
      have hct : df'.cols.contains c' = true := by
        revert hcc; cases df'.cols.contains c' <;> simp
      have hmem' : c' ∈ df'.cols := List.elem_iff.mp hct
      simp [generate_ssml, hmem'] at he
    · intro hcc
      exact ⟨"Column \x27" ++ c' ++ "\x27 not found in the CSV file.",
        by simp [generate_ssml, (contains_false_iff df'.cols c').mp hcc]⟩

/-- C10 witness. -/
theorem generate_ssml_empty_envelope_witness :
    generate_ssml ⟨["EN--Transcription"], []⟩ "EN--Transcription" "M" "F" "en-US"
      = Except.ok (ssmlHeader "en-US" ++ "</speak>") :=
  (generate_ssml_empty_envelope ⟨["EN--Transcription"], []⟩ "EN--Transcription" "M" "F" "en-US"
      (by decide) (by simp)).1

end SSML
